import Mathlib

/-!
Verification development for the diagnostic-to-repair pipeline of this
repository (`src/llm/llm.py`, `src/llm/repair.py`,
`src/llm/infer_report_processor.py`, `src/llm/code_repair.py`,
`src/static_analysis/infer_processor.py`).

Modelling conventions.  Python text values are `String` (lists of characters
under the hood); Python `None` is `Option.none`; dict access `d.get(k)` is an
`Option`-valued field and `d.get(k, default)` is `Option.getD`.  The
whitespace set of `str.strip`/`str.rstrip` and the regex classes `\w`/`\d`
are modelled over ASCII, which covers every input exercised here.  File,
process and network I/O (reading report files, invoking g++, calling the
model backend) are external collaborators of the code and enter the
embedding as explicit function parameters, exactly at the boundaries the
source isolates them (`request_llm`, `check_cpp_syntax`, `load_config`,
reading a source file into a line list).
-/

namespace RepairPipeline

/-! ### Basic Python string primitives -/

/-- The whitespace characters stripped by Python `str.strip`/`str.rstrip`
(ASCII part). -/
def isPyWS (c : Char) : Bool :=
  c == ' ' || c == '\t' || c == '\n' || c == '\r' || c == '\x0b' || c == '\x0c'

/-- Python `s.rstrip()`. -/
def pyRstrip (s : String) : String :=
  ⟨(s.data.reverse.dropWhile isPyWS).reverse⟩

/-- Python `s.strip()`. -/
def pyStrip (s : String) : String :=
  ⟨((s.data.dropWhile isPyWS).reverse.dropWhile isPyWS).reverse⟩

/-- Python `''.join(l)`. -/
def joinAll (l : List String) : String :=
  l.foldl (· ++ ·) ""

/-- Python `'\n'.join(l)`. -/
def joinNl (l : List String) : String :=
  match l with
  | [] => ""
  | x :: xs => xs.foldl (fun a b => a ++ "\n" ++ b) x

/-- `sub in s` on character lists: does `pat` occur as a contiguous
sublist? -/
def hasSubAux (pat : List Char) : List Char → Bool
  | [] => pat.isPrefixOf []
  | c :: rest => pat.isPrefixOf (c :: rest) || hasSubAux pat rest

/-- Python `sub in s` for strings. -/
def strContains (s sub : String) : Bool :=
  hasSubAux sub.data s.data

/-- Number of (possibly overlapping) occurrences of `pat` in a character
list: one per position at which `pat` is a prefix of the suffix. -/
def countSubAux (pat : List Char) : List Char → Nat
  | [] => 0
  | c :: rest => (if pat.isPrefixOf (c :: rest) then 1 else 0) + countSubAux pat rest

/-- Number of occurrences of `pat` in `s`. -/
def countSub (s pat : String) : Nat :=
  countSubAux pat.data s.data

/-- Value of an ASCII digit run, as read by Python `int`. -/
def digitsVal (l : List Char) : Nat :=
  l.foldl (fun n c => 10 * n + (c.toNat - 48)) 0

/-- Regex class `[a-zA-Z_]` (identifier start). -/
def isIdentStart (c : Char) : Bool := c.isAlpha || c == '_'

/-- Regex class `[a-zA-Z0-9_]` (identifier continuation). -/
def isIdentChar (c : Char) : Bool := c.isAlphanum || c == '_'

/-- Regex class `\w` (ASCII model). -/
def isWordChar (c : Char) : Bool := c.isAlphanum || c == '_'

/-- Python `s.lower()` (ASCII model). -/
def lowerStr (s : String) : String :=
  ⟨s.data.map Char.toLower⟩

/-- A string without its final character (used to describe re-annotation of
already-annotated text, whose trailing newline is consumed by `rstrip`). -/
def dropLastStr (s : String) : String :=
  ⟨s.data.dropLast⟩

/-- Split a character list on newlines, keeping the terminator on each line,
exactly like the line list produced by Python `f.readlines()`. -/
def splitKeepNl : List Char → List (List Char)
  | [] => []
  | c :: rest =>
    if c = '\n' then [c] :: splitKeepNl rest
    else
      match splitKeepNl rest with
      | [] => [[c]]
      | l :: ls => (c :: l) :: ls

/-- Python `f.readlines()` applied to a string already in memory. -/
def readlines (s : String) : List String :=
  (splitKeepNl s.data).map (⟨·⟩)

/-- Split a character list on newlines, dropping the terminators
(Python `s.split('\n')`). -/
def splitOnNl : List Char → List (List Char)
  | [] => [[]]
  | c :: rest =>
    if c = '\n' then [] :: splitOnNl rest
    else
      match splitOnNl rest with
      | [] => [[c]]
      | l :: ls => (c :: l) :: ls

/-- Python `s.split('\n')` for strings. -/
def splitLines (s : String) : List String :=
  (splitOnNl s.data).map (⟨·⟩)

/-! ### `get_code_from_result` (src/llm/llm.py)

The source extracts code with `re.findall(r"```(?:\w+)?\n(.*?)\n```", result,
re.DOTALL)` and returns the first capture stripped, else the whole response
stripped.  The regex engine is modelled faithfully: the match is attempted at
every position from the left; at a position it requires the literal three
backticks, then the maximal `\w` run must be followed by a newline (greedy
run with backtracking collapses to exactly this), and the lazy `(.*?)\n```
group takes the content up to the first later occurrence of a newline
followed by three backticks. -/

/-- The three-backtick fence, as characters. -/
def fenceMark : List Char := "```".data

/-- The closing delimiter `"\n```"` of the lazy group, as characters. -/
def closeMark : List Char := "\n```".data

/-- Lazy search for the closing `"\n```"`: content of the capture group, or
`none` if no closer follows. -/
def splitAtCloser : List Char → Option (List Char)
  | [] => none
  | c :: rest =>
    if closeMark.isPrefixOf (c :: rest) then some []
    else (splitAtCloser rest).map (c :: ·)

/-- Attempt the fenced-block pattern at the current position. -/
def tryFence (l : List Char) : Option (List Char) :=
  if fenceMark.isPrefixOf l then
    match (l.drop 3).dropWhile isWordChar with
    | '\n' :: body => splitAtCloser body
    | _ => none
  else none

/-- Leftmost match of the fenced-block pattern (the `matches[0]` the source
uses). -/
def reFirstFence : List Char → Option (List Char)
  | [] => none
  | c :: rest =>
    match tryFence (c :: rest) with
    | some g => some g
    | none => reFirstFence rest

/-- `get_code_from_result` from `src/llm/llm.py`: first fenced-block capture
stripped, else the whole response stripped. -/
def get_code_from_result (result : String) : String :=
  match reFirstFence result.data with
  | some g => pyStrip ⟨g⟩
  | none => pyStrip result

/-! ### Spec-side fenced blocks (for the extraction claim)

Modelled from the spec: "a block delimited by a line starting with three
backticks, optionally followed by a language tag, ending at the next
three-backtick line".  This line-based reading is the spec's description of
extraction; it is compared against `get_code_from_result` above. -/

/-- One step of the line-based block scan: outside a block, a line starting
with three backticks opens one; inside, the next line that is exactly three
backticks closes it. -/
def specBlockStep (st : Bool × List String × List (List String)) (line : String) :
    Bool × List String × List (List String) :=
  match st with
  | (true, cur, acc) =>
    if line = "```" then (false, [], acc ++ [cur])
    else (true, cur ++ [line], acc)
  | (false, cur, acc) =>
    if fenceMark.isPrefixOf line.data then (true, [], acc)
    else (false, cur, acc)

/-- All complete line-based fenced blocks of a response, each as its list of
content lines (an unclosed trailing opener yields no block). -/
def specFencedBlocks (s : String) : List (List String) :=
  ((splitLines s).foldl specBlockStep (false, [], [])).2.2

/-! ### Data model (sections 3 of the spec, dictionaries of the source) -/

/-- Python `str(x)` as used in f-string interpolation of an optional string:
`None` renders as `"None"`. -/
def pyOptStr : Option String → String
  | some s => s
  | none => "None"

/-- One entry of the `lintList` built by `process_infer_report`
(`src/llm/infer_report_processor.py`, lines 127-131). -/
structure LintItem where
  line_num : Int
  qualifier : String
  bug_type_hum : Option String
deriving DecidableEq

/-- One failed test joined to a file by `repair.py` (name plus the filtered
trace output). -/
structure FailedTest where
  name : String
  filtered_output : String
deriving DecidableEq

/-- One rule of `config.json` as consumed by `repair_file`. -/
structure ConfigRule where
  lintType : String
  fixPrompt : String
deriving DecidableEq

/-- The `modified_content` dictionary passed to `repair_file`. -/
structure ModifiedContent where
  content : String
  lintList : List LintItem
  failed_tests : List FailedTest := []
  summary : Option String := none
deriving DecidableEq

/-- One raw analyzer entry of the Infer `report.json`, as read by
`process_infer_report` (only the keys that function reads). -/
structure ReportEntry where
  file : Option String := none
  line : Option Int := none
  qualifier : Option String := none
  bug_type_hum : Option String := none
deriving DecidableEq

/-! ### `repair_file` and `fix_cpp_syntax_with_llm` (src/llm/repair.py)

The two external collaborators are parameters: `llm` is `request_llm`
(prompt text to response text) and `check` is `check_cpp_syntax` (candidate
text to g++ diagnostic text, `""` meaning syntactically valid).  The
environment toggles `NO_REQUEST_LLM` and `USE_DEBUG_MODE` are modelled in
their default (off) state, and `load_config` enters as the `config_rules`
parameter. -/

/-- The syntax-repair prompt built inside `fix_cpp_syntax_with_llm`. -/
def fixSyntaxPrompt (cpp_code error_msg : String) : String :=
  "Act as a C++ expert to fix syntax errors by:\n1. Analyzing compilation error messages\n2. Locating exact problematic code lines\n3. Applying minimal necessary corrections\n4. Preserving original code logic\n\nInput code:\n```cpp\n"
    ++ cpp_code ++ "\n```\n\nCompiler errors:\n" ++ error_msg
    ++ "\n\nOutput only:Corrected working code"

/-- The recursion of `fix_cpp_syntax_with_llm` on the remaining retry budget
`max_retry_times - retry_times` (the source recurses with
`retry_times + 1` and stops at `retry_times >= max_retry_times`, which is
exactly this fuel counting down to 0). -/
def fixCppAux (llm check : String → String) : Nat → String → Bool × String
  | 0, cpp_code => (false, cpp_code)
  | fuel + 1, cpp_code =>
    let error_msg := check cpp_code
    if error_msg = "" then (true, cpp_code)
    else
      let fixed_code := get_code_from_result (llm (fixSyntaxPrompt cpp_code error_msg))
      if fixed_code = "" then (false, cpp_code)
      else fixCppAux llm check fuel fixed_code

/-- `fix_cpp_syntax_with_llm` from `src/llm/repair.py` (the source defaults
are `max_retry_times = 3`, `retry_times = 0`). -/
def fix_cpp_syntax_with_llm (llm check : String → String) (cpp_code : String)
    (max_retry_times retry_times : Nat) : Bool × String :=
  fixCppAux llm check (max_retry_times - retry_times) cpp_code

/-- Number of language-model requests issued by `fix_cpp_syntax_with_llm`
(instrumentation of the same control flow). -/
def fixCppAuxLLMCalls (llm check : String → String) : Nat → String → Nat
  | 0, _ => 0
  | fuel + 1, cpp_code =>
    if check cpp_code = "" then 0
    else
      let fixed_code := get_code_from_result (llm (fixSyntaxPrompt cpp_code (check cpp_code)))
      1 + (if fixed_code = "" then 0 else fixCppAuxLLMCalls llm check fuel fixed_code)

/-- Number of syntax-oracle invocations issued by `fix_cpp_syntax_with_llm`
(instrumentation of the same control flow). -/
def fixCppAuxOracleCalls (llm check : String → String) : Nat → String → Nat
  | 0, _ => 0
  | fuel + 1, cpp_code =>
    1 + (if check cpp_code = "" then 0
      else
        let fixed_code := get_code_from_result (llm (fixSyntaxPrompt cpp_code (check cpp_code)))
        if fixed_code = "" then 0 else fixCppAuxOracleCalls llm check fuel fixed_code)

/-- The `custom_fix_prompts` accumulator of `repair_file`: for each lint
item, every config rule whose `lintType` equals the item's `bug_type_hum`
contributes one guideline line. -/
def customFixPrompts (config_rules : List ConfigRule) (bug_types : List LintItem) : String :=
  bug_types.foldl (fun acc item =>
    config_rules.foldl (fun a rule =>
      if some rule.lintType = item.bug_type_hum then
        a ++ "- For \x27" ++ pyOptStr item.bug_type_hum ++ "\x27 issues: " ++ rule.fixPrompt ++ "\n"
      else a) acc) ""

/-- The `failed_tests_section` of the repair prompt. -/
def failedTestsBlock (failed_tests : List FailedTest) : String :=
  if failed_tests.length > 0 then
    "\nFailed Tests:\n"
      ++ joinNl (failed_tests.map (fun t => "- " ++ t.name ++ "\n" ++ t.filtered_output ++ "\n"))
      ++ "\n\nPlease ensure your fixes address these test failures while maintaining the original functionality.\n"
  else ""

/-- The main repair prompt assembled by `repair_file` (the `language`
interpolations are the constant `"C++"`). -/
def repairPrompt (config_rules : List ConfigRule) (mc : ModifiedContent) : String :=
  let cfp := customFixPrompts config_rules mc.lintList
  let custom_prompts_section :=
    if cfp ≠ "" then "Custom fix guidelines:\n" ++ cfp ++ "\n\n" else ""
  let infer_warnings_section :=
    if mc.lintList ≠ [] then ""
    else "Each warning is marked with an end-of-line comment containing \x27//[INFER_WARNING] <bug_type_hum>:<Mqualifier>\x27."
  let summary_section :=
    match mc.summary with
    | none => ""
    | some s => "Infer warnings summary:\n" ++ s
  "\nAs a senior code quality engineer, carefully inspect the following code file."
    ++ infer_warnings_section
    ++ "\n\nRequirements:\n1. Resolve all issues while strictly preserving original functionality\n2. Maintain existing code style and formatting\n3. Prioritize safe fixes that prevent potential runtime errors\n4. Use minimal code changes to address each issue\n5. Validate solutions against the original code\x27s intent\n6. You should only fix marked warnings, do not change other parts of the code\n7. Ensure fixes address any failed tests\n\n"
    ++ custom_prompts_section ++ "\n" ++ failedTestsBlock mc.failed_tests
    ++ "\n\nLanguage: C++\n\n# File content with warnings\n```cpp\n" ++ mc.content
    ++ "\n```\n\n" ++ summary_section
    ++ "\n\n**Important:**\n- Only output the complete fixed code\n- Never add explanations or comments\n- Keep original comments unless they reference warnings\n- Ensure exact syntax validation for C++\n"

/-- `repair_file` from `src/llm/repair.py`: request a repair, extract the
code, run the syntax-repair loop; `none` models the Python `None` returned
on an empty model response, and a failed loop falls back to the original
annotated content. -/
def repair_file (llm check : String → String) (config_rules : List ConfigRule)
    (mc : ModifiedContent) : Option String :=
  let fixed_content := llm (repairPrompt config_rules mc)
  if fixed_content = "" then none
  else
    let extracted := get_code_from_result fixed_content
    let r := fix_cpp_syntax_with_llm llm check extracted 3 0
    if r.1 = false ∨ r.2 = "" then some mc.content
    else some r.2

/-- Number of syntax-oracle invocations made by one `repair_file` call
(instrumentation of the same control flow). -/
def repairFileOracleCalls (llm check : String → String) (config_rules : List ConfigRule)
    (mc : ModifiedContent) : Nat :=
  let fixed_content := llm (repairPrompt config_rules mc)
  if fixed_content = "" then 0
  else fixCppAuxOracleCalls llm check 3 (get_code_from_result fixed_content)

/-- Number of language-model requests made by one `repair_file` call
(instrumentation of the same control flow; the initial repair request
counts). -/
def repairFileLLMCalls (llm check : String → String) (config_rules : List ConfigRule)
    (mc : ModifiedContent) : Nat :=
  let fixed_content := llm (repairPrompt config_rules mc)
  1 + (if fixed_content = "" then 0
    else fixCppAuxLLMCalls llm check 3 (get_code_from_result fixed_content))

/-! ### Comment markers (`get_comment_syntax`, src/llm/infer_report_processor.py) -/

/-- The extension-to-comment table of `get_comment_syntax`. -/
def comment_map : List (String × String) :=
  [(".py", "#"), (".js", "//"), (".ts", "//"), (".java", "//"), (".c", "//"),
   (".cpp", "//"), (".h", "//"), (".hpp", "//"), (".cs", "//"), (".php", "//"),
   (".swift", "//"), (".go", "//"), (".rs", "//"), (".rb", "#"), (".pl", "#"),
   (".sh", "#"), (".bash", "#"), (".yaml", "#"), (".yml", "#"), (".toml", "#"),
   (".sql", "--")]

/-- `Path(file_path).suffix`: the final `.`-led extension of the last path
segment, empty when the name has no interior dot or nothing after it. -/
def pathSuffix (p : String) : String :=
  let name := (p.data.reverse.takeWhile (fun c => c ≠ '/')).reverse
  let ext := (name.reverse.takeWhile (fun c => c ≠ '.')).reverse
  if ext.length ≠ 0 ∧ ext.length + 1 < name.length then "." ++ (⟨ext⟩ : String) else ""

/-- `get_comment_syntax` from `src/llm/infer_report_processor.py`: comment
marker chosen by lowercased file extension, defaulting to C-style `//`. -/
def getCommentMark (file_path : String) : String :=
  let extension := lowerStr (pathSuffix file_path)
  (((comment_map.find? (fun pr => pr.1 = extension)).map (fun pr => pr.2))).getD "//"

/-! ### `process_infer_report`, per file (src/llm/infer_report_processor.py)

The source groups report entries by file, reads each file into a line list
and then runs the loop below.  The embedding models exactly that per-file
loop: `file_content` is the `readlines` result, `entries` the group for this
file in report order.  `last_bug_type_hum` models the Python loop variable
`bug_type_hum`, which is assigned on every iteration (before any of the
skip checks) and is later read, after the loop has finished, when the
annotation text is built. -/

/-- Loop state of the entry loop of `process_infer_report`:
`modified_lines` is the insertion-ordered `line_idx -> qualifier` dict,
`lint_list` the accumulated issue list. -/
structure NormState where
  modified_lines : List (Nat × String) := []
  lint_list : List LintItem := []
  last_bug_type_hum : Option String := none
deriving DecidableEq

/-- One iteration of the entry loop (lines 106-134 of the source): skip on a
missing line or qualifier, skip (with a warning) on an out-of-range line or
an already-modified line, otherwise record the issue and the line. -/
def entryStep (numLines : Nat) (st : NormState) (entry : ReportEntry) : NormState :=
  let st := { st with last_bug_type_hum := entry.bug_type_hum }
  match entry.line, entry.qualifier with
  | some line_num, some qualifier =>
    if line_num - 1 < 0 ∨ (numLines : Int) ≤ line_num - 1 then st
    else if st.modified_lines.any (fun p => p.1 = (line_num - 1).toNat) then st
    else
      { st with
        lint_list := st.lint_list ++ [⟨line_num, qualifier, entry.bug_type_hum⟩],
        modified_lines := st.modified_lines ++ [((line_num - 1).toNat, qualifier)] }
  | _, _ => st

/-- State after the whole entry loop. -/
def processEntries (numLines : Nat) (entries : List ReportEntry) : NormState :=
  entries.foldl (entryStep numLines) {}

/-- The end-of-line annotation `marked_info` (line 143 of the source).  Note
that `bt` is the leftover loop variable `bug_type_hum`, not a per-line
value. -/
def markedInfo (cmark : String) (bt : Option String) (qualifier : String) : String :=
  " " ++ cmark ++ " [INFER_WARNING] " ++ pyOptStr bt ++ ":" ++ qualifier ++ "\n"

/-- The annotation loop (lines 142-144 of the source): each recorded line is
replaced by its right-stripped text plus the marker. -/
def applyMods (cmark : String) (bt : Option String) (content : List String)
    (mods : List (Nat × String)) : List String :=
  mods.foldl (fun c p => c.set p.1 (pyRstrip (c.getD p.1 "") ++ markedInfo cmark bt p.2)) content

/-- The per-file record stored into `modified_files` (the `summary` field,
produced by the separately modelled summarizer from the externally loaded
processed-issue file, is independent of the annotation logic). -/
structure ModifiedFile where
  content : String
  lintList : List LintItem
deriving DecidableEq

/-- The body of `process_infer_report` for one file: run the entry loop,
and if any line was recorded, return the annotated content (joined back to
one string) together with the lint list; otherwise the file contributes
nothing. -/
def process_infer_report_file (cmark : String) (file_content : List String)
    (entries : List ReportEntry) : Option ModifiedFile :=
  let st := processEntries file_content.length entries
  if st.modified_lines = [] then none
  else some
    { content := joinAll (applyMods cmark st.last_bug_type_hum file_content st.modified_lines),
      lintList := st.lint_list }

/-! ### Issue summaries (src/llm/code_repair.py and
`InferProcessManager.summarize_issues`)

Processed issues are the dictionaries of the externally written
`infer_processed.json`; only the keys the summarizers read are modelled. -/

/-- The `location` sub-dictionary of a processed issue. -/
structure LocationRec where
  file : Option String := none
  line : Option Int := none
deriving DecidableEq

/-- The `context` sub-dictionary of a processed issue. -/
structure ContextRec where
  before : Option (List String) := none
  target_line : Option String := none
  after : Option (List String) := none
deriving DecidableEq

/-- The `analysis` sub-dictionary of a processed issue (the summarizers read
only `fix_suggestions`). -/
structure AnalysisRec where
  fix_suggestions : Option (List String) := none
deriving DecidableEq

/-- A processed issue as consumed by the two summarizers. -/
structure ProcessedIssue where
  location : Option LocationRec := none
  description : Option String := none
  issue_type : Option String := none
  context : Option ContextRec := none
  analysis : Option AnalysisRec := none
deriving DecidableEq

/-- One summarized entry, as built (identically) by both summarizers. -/
structure SummarizedIssue where
  location : Option LocationRec
  description : Option String
  issue_type : Option String
  code_snippet : String
  suggestions : List String
deriving DecidableEq

/-- The `code_snippet` of a summarized entry: context lines joined with the
target line marked by `>>> `. -/
def issueSnippet (issue : ProcessedIssue) : String :=
  let context := issue.context.getD {}
  joinNl (context.before.getD [] ++ [">>> " ++ context.target_line.getD ""] ++ context.after.getD [])

/-- The summarized record appended per issue — the construction is textually
identical in `CodeRepairPrompt._summarize_issues` and
`InferProcessManager.summarize_issues`. -/
def summarizeEntry (issue : ProcessedIssue) : SummarizedIssue :=
  { location := issue.location
    description := issue.description
    issue_type := issue.issue_type
    code_snippet := issueSnippet issue
    suggestions := (issue.analysis.getD {}).fix_suggestions.getD [] }

/-- `CodeRepairPrompt._summarize_issues` from `src/llm/code_repair.py`:
loop over `issues[:max_issues]` appending one summarized record each (the
source default for `max_issues` is 3). -/
def CodeRepairPrompt_summarize_issues (issues : List ProcessedIssue) (max_issues : Nat) :
    List SummarizedIssue :=
  (issues.take max_issues).foldl (fun acc issue => acc ++ [summarizeEntry issue]) []

/-- `issue.get("location", {}).get("file")`. -/
def locationFile (issue : ProcessedIssue) : Option String :=
  (issue.location.getD {}).file

/-- `InferProcessManager.summarize_issues` from
`src/llm/infer_report_processor.py`: loop over every loaded processed issue,
keeping those whose location file equals the target path — with no cap. -/
def InferProcessManager_summarize_issues (infer_processed : List ProcessedIssue)
    (target_path : String) : List SummarizedIssue :=
  infer_processed.foldl (fun acc issue =>
    if locationFile issue = some target_path then acc ++ [summarizeEntry issue] else acc) []

/-! ### Diagnostic enrichment (src/static_analysis/infer_processor.py)

The regex scans below follow the Python `re` engine: a match is attempted at
every position from the left, a failed attempt moves one position right, a
successful `findall` match resumes after its end.  The scans that resume
after a match use the input length as recursion fuel; each step consumes at
least one character, so the fuel never runs out before the input does. -/

/-- One step of a `bug_trace` (only the keys the embedded functions read). -/
structure TraceStep where
  description : Option String := none
  file : Option String := none
  line : Option Int := none
deriving DecidableEq

/-- One raw Infer diagnostic as consumed by `_process_single_issue`. -/
structure RawDiag where
  file : Option String := none
  line : Option Int := none
  column : Option Int := none
  bug_type : Option String := none
  qualifier : Option String := none
  severity : Option String := none
  bug_trace : List TraceStep := []
deriving DecidableEq

/-- The backtick character (U+0060). -/
def backtickChar : Char := Char.ofNat 96

/-- At a position just after an opening backtick: match
`[a-zA-Z_][a-zA-Z0-9_]*` followed by a closing backtick, returning the
identifier and the rest of the input after the closing backtick. -/
def identAt (l : List Char) : Option (String × List Char) :=
  match l with
  | c :: rest =>
    if isIdentStart c then
      match rest.dropWhile isIdentChar with
      | d :: r2 =>
        if d = backtickChar then some (⟨c :: rest.takeWhile isIdentChar⟩, r2) else none
      | [] => none
    else none
  | [] => none

/-- `re.findall` for the backtick-quoted identifier pattern of
`_extract_variables`. -/
def backtickVarsAux : Nat → List Char → List String
  | 0, _ => []
  | _, [] => []
  | fuel + 1, c :: rest =>
    if c = backtickChar then
      match identAt rest with
      | some (id, r2) => id :: backtickVarsAux fuel r2
      | none => backtickVarsAux fuel rest
    else backtickVarsAux fuel rest

/-- All backtick-quoted identifiers of a description, in match order. -/
def backtickVars (l : List Char) : List String :=
  backtickVarsAux l.length l

/-- `re.findall` for one `"<phrase>([a-zA-Z_][a-zA-Z0-9_]*)"` pattern of
`_extract_variables`. -/
def phraseVarsAux (phrase : List Char) : Nat → List Char → List String
  | 0, _ => []
  | _, [] => []
  | fuel + 1, c :: rest =>
    if phrase.isPrefixOf (c :: rest) then
      match (c :: rest).drop phrase.length with
      | d :: r2 =>
        if isIdentStart d then
          (⟨d :: r2.takeWhile isIdentChar⟩ : String)
            :: phraseVarsAux phrase fuel (r2.dropWhile isIdentChar)
        else phraseVarsAux phrase fuel rest
      | [] => phraseVarsAux phrase fuel rest
    else phraseVarsAux phrase fuel rest

/-- All captures of one phrase pattern over a description. -/
def phraseVars (phrase : String) (l : List Char) : List String :=
  phraseVarsAux phrase.data l.length l

/-- Python `list(set(l))`, modelled as first-occurrence deduplication (the
set iteration order is implementation-defined; every list the claims
exercise has at most one element, where the two orders agree). -/
def pyDedupAux (seen : List String) : List String → List String
  | [] => []
  | x :: xs => if seen.contains x then pyDedupAux seen xs else x :: pyDedupAux (x :: seen) xs

/-- `_extract_variables` from `src/static_analysis/infer_processor.py`:
backtick-quoted identifiers first; if none, the fixed phrase patterns. -/
def extract_variables (description : String) : List String :=
  let vars0 := backtickVars description.data
  if vars0 ≠ [] then pyDedupAux [] vars0
  else
    let vs := vars0
      ++ phraseVars "variable " description.data
      ++ phraseVars "pointer " description.data
      ++ phraseVars "value of " description.data
    pyDedupAux [] vs

/-- The literal phrase of the origin-line pattern. -/
def originPhrase : List Char := "originating from line ".data

/-- `re.search(r"originating from line (\d+)", s)`: leftmost position where
the phrase is followed by at least one digit. -/
def extractOriginAux : List Char → Option Nat
  | [] => none
  | c :: rest =>
    if originPhrase.isPrefixOf (c :: rest) then
      let ds := ((c :: rest).drop originPhrase.length).takeWhile Char.isDigit
      if ds = [] then extractOriginAux rest else some (digitsVal ds)
    else extractOriginAux rest

/-- `_extract_origin_line` from `src/static_analysis/infer_processor.py`. -/
def extract_origin_line (description : String) : Option Nat :=
  extractOriginAux description.data

/-- Python truthiness of an optional int: false for `None` and for `0`. -/
def pyTruthyNat (o : Option Nat) : Bool :=
  o.getD 0 ≠ 0

/-- The move-the-dereference suggestion text (it occurs verbatim twice in
the source: in `_generate_fix_suggestions` and in
`_process_single_issue`). -/
def nullCompareNote (var_name : String) : String :=
  "Move the dereference inside the if (" ++ var_name ++ " != nullptr) block instead of the else block"

/-- `_generate_fix_suggestions` from
`src/static_analysis/infer_processor.py`.  `raw_results` is
`self.raw_results`, scanned whole for a "compared to null" trace step. -/
def generate_fix_suggestions (raw_results : List RawDiag) (bug_type description : String)
    (vars : List String) : List String :=
  let bug_type_lower := lowerStr bug_type
  let var_name := vars.headD "the pointer"
  let origin_line := extract_origin_line description
  let suggestions : List String :=
    if strContains bug_type_lower "null_dereference" then
      if pyTruthyNat origin_line then
        let base := [
          "Add a null check before dereferencing " ++ var_name,
          "Replace nullptr with a valid memory allocation (e.g., " ++ var_name ++ " = new char[1];)",
          "Add a guard clause: if (" ++ var_name ++ " == nullptr) return; // or throw an exception"]
        let has_if_check := raw_results.any (fun result =>
          result.bug_trace.any (fun step => strContains (step.description.getD "") "compared to null"))
        if has_if_check then base ++ [nullCompareNote var_name] else base
      else [
        "Add null check before dereferencing " ++ var_name,
        "Initialize " ++ var_name ++ " with a valid value",
        "Use smart pointers to handle null cases automatically"]
    else if strContains bug_type_lower "memory_leak" then [
      "Free allocated memory when it\x27s no longer needed",
      "Use smart pointers or containers to manage memory automatically",
      "Ensure all code paths properly free resources"]
    else if strContains bug_type_lower "buffer_overrun" then [
      "Add bounds checking before accessing the array",
      "Use safer array access methods or container classes",
      "Validate input sizes before using them for array access"]
    else if strContains bug_type_lower "uninitialized_value" then [
      "Initialize " ++ var_name ++ " before use",
      "Provide default values for variables",
      "Add validation to ensure variables have been initialized"]
    else if strContains bug_type_lower "use_after_free" then [
      "Set pointers to null after freeing",
      "Use smart pointers to manage object lifetime",
      "Restructure code to avoid accessing freed memory"]
    else []
  if strContains (lowerStr description) "null" ∧ pyTruthyNat origin_line then
    suggestions ++ [
      "Consider using a sentinel value instead of null for " ++ var_name,
      "Initialize " ++ var_name ++ " with a safe default value at line " ++ toString (origin_line.getD 0)]
  else suggestions

/-- The `analysis.fix_suggestions` field of the Issue built by
`_process_single_issue` (lines 91-135 of the source): `none` models the
`return None` for a diagnostic without a resolvable file or with line 0;
for `NULLPTR_DEREFERENCE` a "compared to null" step in the diagnostic's own
trace prepends the move-the-dereference suggestion.  The other Issue fields
(context, trace, cause, implications) are built from file I/O and unrelated
helpers and are not read by any claim. -/
def process_single_issue_fix_suggestions (raw_results : List RawDiag) (issue : RawDiag) :
    Option (List String) :=
  let file_path := issue.file.getD ""
  let line_number := issue.line.getD 0
  if file_path = "" ∨ line_number = 0 then none
  else
    let bug_type := issue.bug_type.getD "UNKNOWN"
    let qualifier := issue.qualifier.getD ""
    let involved_variables := extract_variables qualifier
    let fix_suggestions := generate_fix_suggestions raw_results bug_type qualifier involved_variables
    if bug_type = "NULLPTR_DEREFERENCE" ∧
        issue.bug_trace.any (fun step => strContains (step.description.getD "") "compared to null") then
      some (nullCompareNote (involved_variables.headD "the pointer") :: fix_suggestions)
    else some fix_suggestions

/-! ## Theorems -/

/-! ### General helper lemmas -/

theorem data_append (s t : String) : (s ++ t).data = s.data ++ t.data := rfl

theorem mk_data (s : String) : (⟨s.data⟩ : String) = s := rfl

theorem fenceMark_eq : fenceMark = backtickChar :: backtickChar :: backtickChar :: [] := by
  decide

theorem closeMark_eq : closeMark = '\n' :: backtickChar :: backtickChar :: backtickChar :: [] := by
  decide

theorem isPrefixOf_append_self (l m : List Char) : l.isPrefixOf (l ++ m) = true := by
  induction l with
  | nil => simp [List.isPrefixOf]
  | cons c t ih => simp [List.isPrefixOf, ih]

theorem isPrefixOf_cons_of_ne (a c : Char) (as l : List Char) (h : ¬ a = c) :
    (a :: as).isPrefixOf (c :: l) = false := by
  simp [List.isPrefixOf, h]

theorem dropWhile_append_of_all {p : Char → Bool} (l m : List Char)
    (h : ∀ c ∈ l, p c = true) : (l ++ m).dropWhile p = m.dropWhile p := by
  induction l with
  | nil => rfl
  | cons c t ih =>
    have hc := h c (List.mem_cons_self c t)
    simp [List.dropWhile_cons, hc, ih fun x hx => h x (List.mem_cons_of_mem _ hx)]

/-! ### Lemmas on the fenced-block scan of `get_code_from_result` -/

theorem tryFence_of_head_ne (c : Char) (xs : List Char) (h : ¬ c = backtickChar) :
    tryFence (c :: xs) = none := by
  unfold tryFence
  rw [fenceMark_eq, isPrefixOf_cons_of_ne _ _ _ _ fun he => h he.symm]
  simp

theorem reFirstFence_append_no_btick (l rest : List Char)
    (h : ∀ c ∈ l, ¬ c = backtickChar) :
    reFirstFence (l ++ rest) = reFirstFence rest := by
  induction l with
  | nil => rfl
  | cons c t ih =>
    have hc := h c (List.mem_cons_self c t)
    show reFirstFence (c :: (t ++ rest)) = _
    simp only [reFirstFence, tryFence_of_head_ne c _ hc]
    exact ih fun x hx => h x (List.mem_cons_of_mem _ hx)

theorem splitAtCloser_self (rest : List Char) : splitAtCloser (closeMark ++ rest) = some [] := by
  have h1 : closeMark ++ rest
      = '\n' :: (backtickChar :: backtickChar :: backtickChar :: rest) := by
    rw [closeMark_eq]; rfl
  have h2 : closeMark.isPrefixOf
      ('\n' :: (backtickChar :: backtickChar :: backtickChar :: rest)) = true := by
    rw [← h1]; exact isPrefixOf_append_self _ _
  rw [h1]
  simp only [splitAtCloser, h2]
  simp

theorem splitAtCloser_exact (t rest : List Char) (h : ∀ c ∈ t, ¬ c = backtickChar) :
    splitAtCloser (t ++ (closeMark ++ rest)) = some t := by
  induction t with
  | nil => exact splitAtCloser_self rest
  | cons c t' ih =>
    have hin : List.isPrefixOf (backtickChar :: backtickChar :: backtickChar :: [])
        (t' ++ ('\n' :: backtickChar :: backtickChar :: backtickChar :: rest)) = false := by
      cases t' with
      | nil =>
        simp only [List.nil_append]
        exact isPrefixOf_cons_of_ne _ _ _ _ (by decide)
      | cons d t'' =>
        have hd := h d (List.mem_cons_of_mem _ (List.mem_cons_self d t''))
        exact isPrefixOf_cons_of_ne _ _ _ _ fun he => hd he.symm
    have hnp : closeMark.isPrefixOf (c :: (t' ++ (closeMark ++ rest))) = false := by
      by_cases hc : c = '\n'
      · subst hc
        rw [closeMark_eq]
        simp only [List.cons_append, List.nil_append]
        simp [List.isPrefixOf, hin]
      · rw [closeMark_eq]
        exact isPrefixOf_cons_of_ne _ _ _ _ fun he => hc he.symm
    show splitAtCloser (c :: (t' ++ (closeMark ++ rest))) = some (c :: t')
    simp only [splitAtCloser, hnp]
    simp [ih fun x hx => h x (List.mem_cons_of_mem _ hx)]

theorem tryFence_at_fence (tag body : List Char) (htag : ∀ c ∈ tag, isWordChar c = true) :
    tryFence (fenceMark ++ (tag ++ '\n' :: body)) = splitAtCloser body := by
  unfold tryFence
  rw [isPrefixOf_append_self]
  have hdrop : (fenceMark ++ (tag ++ '\n' :: body)).drop 3 = tag ++ '\n' :: body := by
    rw [fenceMark_eq]; rfl
  have hnl : isWordChar '\n' = false := by decide
  have hdw : ((fenceMark ++ (tag ++ '\n' :: body)).drop 3).dropWhile isWordChar
      = '\n' :: body := by
    rw [hdrop, dropWhile_append_of_all _ _ htag, List.dropWhile_cons, hnl]
    simp
  rw [hdw]
  simp

theorem reFirstFence_found (tag body g : List Char) (htag : ∀ c ∈ tag, isWordChar c = true)
    (hg : splitAtCloser body = some g) :
    reFirstFence (fenceMark ++ (tag ++ '\n' :: body)) = some g := by
  have h1 : fenceMark ++ (tag ++ '\n' :: body)
      = backtickChar :: (backtickChar :: backtickChar :: (tag ++ '\n' :: body)) := by
    rw [fenceMark_eq]; rfl
  rw [h1]
  simp only [reFirstFence]
  rw [← h1, tryFence_at_fence _ _ htag, hg]

theorem reFirstFence_none_of_no_fence (l : List Char) (h : hasSubAux fenceMark l = false) :
    reFirstFence l = none := by
  induction l with
  | nil => rfl
  | cons c t ih =>
    rw [hasSubAux, Bool.or_eq_false_iff] at h
    have htf : tryFence (c :: t) = none := by
      unfold tryFence
      rw [h.1]
      simp
    simp only [reFirstFence, htf]
    exact ih h.2

/-! ### C5: code-extraction round trip -/

/-- C5, counterexample: the response `"a```b\nX\n```"` contains no line-based
fenced block (no line starts with three backticks and is closed), so the
claim requires the whole trimmed response; the extraction regex is not
line-anchored, matches the mid-line backticks and returns `"X"` instead. -/
theorem C5_counterexample :
    specFencedBlocks "a```b\nX\n```" = [] ∧
    get_code_from_result "a```b\nX\n```" = "X" ∧
    pyStrip "a```b\nX\n```" = "a```b\nX\n```" ∧
    ("X" : String) ≠ "a```b\nX\n```" :=
  ⟨by decide, by decide, by decide, by decide⟩

/-- C5, amended: extraction is regex-based and not line-anchored.  For every
response of shape `pre ++ "```" ++ tag ++ "\n" ++ T ++ "\n```" ++ post` in
which `pre` and `T` contain no backtick and `tag` is a word-character run,
`get_code_from_result` returns `T` trimmed (the opener need not start a
line); and for every response containing no three-backtick substring it
returns the whole response trimmed. -/
theorem C5_code_extraction (pre tag T post : String)
    (hpre : ∀ c ∈ pre.data, ¬ c = backtickChar)
    (htag : ∀ c ∈ tag.data, isWordChar c = true)
    (hT : ∀ c ∈ T.data, ¬ c = backtickChar) :
    get_code_from_result (pre ++ "```" ++ tag ++ "\n" ++ T ++ "\n```" ++ post) = pyStrip T ∧
    ∀ s : String, strContains s "```" = false → get_code_from_result s = pyStrip s := by
  constructor
  · have hdata : (pre ++ "```" ++ tag ++ "\n" ++ T ++ "\n```" ++ post).data
        = pre.data ++ (fenceMark ++ (tag.data ++ '\n' :: (T.data ++ (closeMark ++ post.data)))) := by
      simp only [data_append, List.append_assoc]
      rfl
    unfold get_code_from_result
    rw [hdata, reFirstFence_append_no_btick _ _ hpre,
      reFirstFence_found _ _ _ htag (splitAtCloser_exact T.data _ hT)]
  · intro s hs
    unfold get_code_from_result
    rw [reFirstFence_none_of_no_fence s.data hs]

/-- C5, witness: a concrete fenced response and a concrete fence-free
response, instantiating the amended theorem. -/
theorem C5_witness :
    get_code_from_result ("hello\n" ++ "```" ++ "cpp" ++ "\n" ++ " int x; " ++ "\n```" ++ "tail")
      = pyStrip " int x; " ∧
    get_code_from_result "no fence here" = pyStrip "no fence here" :=
  ⟨(C5_code_extraction "hello\n" "cpp" " int x; " "tail"
      (by decide) (by decide) (by decide)).1,
   (C5_code_extraction "hello\n" "cpp" " int x; " "tail"
      (by decide) (by decide) (by decide)).2 "no fence here" (by decide)⟩

/-! ### C1: retry exhaustion of the repair loop -/

theorem fixCppAux_fst_false (llm check : String → String)
    (hInv : ∀ s, ¬ check s = "")
    (hExt : ∀ p, ¬ get_code_from_result (llm p) = "") :
    ∀ (fuel : Nat) (c : String), (fixCppAux llm check fuel c).1 = false := by
  intro fuel
  induction fuel with
  | zero => intro c; rfl
  | succ n ih =>
    intro c
    simp [fixCppAux, hInv c, hExt (fixSyntaxPrompt c (check c)), ih]

theorem fixCppAuxLLMCalls_eq (llm check : String → String)
    (hInv : ∀ s, ¬ check s = "")
    (hExt : ∀ p, ¬ get_code_from_result (llm p) = "") :
    ∀ (fuel : Nat) (c : String), fixCppAuxLLMCalls llm check fuel c = fuel := by
  intro fuel
  induction fuel with
  | zero => intro c; rfl
  | succ n ih =>
    intro c
    simp [fixCppAuxLLMCalls, hInv c, hExt (fixSyntaxPrompt c (check c)), ih]
    omega

theorem fixCppAuxOracleCalls_eq (llm check : String → String)
    (hInv : ∀ s, ¬ check s = "")
    (hExt : ∀ p, ¬ get_code_from_result (llm p) = "") :
    ∀ (fuel : Nat) (c : String), fixCppAuxOracleCalls llm check fuel c = fuel := by
  intro fuel
  induction fuel with
  | zero => intro c; rfl
  | succ n ih =>
    intro c
    simp [fixCppAuxOracleCalls, hInv c, hExt (fixSyntaxPrompt c (check c)), ih]
    omega

/-- C1: with a syntax oracle that reports invalid on every candidate (and a
model that keeps answering with nonempty extractable responses, so every
attempt actually happens), the repair-and-revalidate loop makes exactly 3
language-model attempts and 3 oracle checks, reports failure, and
`repair_file` returns the original pre-repair annotated content — never the
last invalid candidate. -/
theorem C1_retry_exhaustion (llm check : String → String) (config_rules : List ConfigRule)
    (mc : ModifiedContent) (c0 : String)
    (hInv : ∀ s, ¬ check s = "")
    (hLLM : ∀ p, ¬ llm p = "")
    (hExt : ∀ p, ¬ get_code_from_result (llm p) = "") :
    fixCppAuxLLMCalls llm check 3 c0 = 3 ∧
    fixCppAuxOracleCalls llm check 3 c0 = 3 ∧
    (fix_cpp_syntax_with_llm llm check c0 3 0).1 = false ∧
    repair_file llm check config_rules mc = some mc.content := by
  have hfix := fixCppAux_fst_false llm check hInv hExt 3
    (get_code_from_result (llm (repairPrompt config_rules mc)))
  refine ⟨fixCppAuxLLMCalls_eq llm check hInv hExt 3 c0,
    fixCppAuxOracleCalls_eq llm check hInv hExt 3 c0,
    fixCppAux_fst_false llm check hInv hExt 3 c0, ?_⟩
  simp [repair_file, hLLM (repairPrompt config_rules mc), fix_cpp_syntax_with_llm, hfix]

/-- C1, witness: a concrete always-invalid oracle and constant model. -/
theorem C1_witness :
    fixCppAuxLLMCalls (fun _ => "z") (fun _ => "e") 3 "start" = 3 ∧
    fixCppAuxOracleCalls (fun _ => "z") (fun _ => "e") 3 "start" = 3 ∧
    (fix_cpp_syntax_with_llm (fun _ => "z") (fun _ => "e") "start" 3 0).1 = false ∧
    repair_file (fun _ => "z") (fun _ => "e") [] { content := "orig", lintList := [] }
      = some "orig" :=
  C1_retry_exhaustion (fun _ => "z") (fun _ => "e") [] { content := "orig", lintList := [] }
    "start" (fun _ => show ¬ "e" = "" by decide) (fun _ => show ¬ "z" = "" by decide)
    (fun _ => show ¬ get_code_from_result "z" = "" by decide)

/-! ### C6: empty model response -/

/-- C6: when the language model returns the empty string for a file's repair
prompt, `repair_file` reports a failed repair (`none`) without ever invoking
the syntax oracle, with exactly one model request (no retry at the loop
layer). -/
theorem C6_empty_model_response (llm check : String → String)
    (config_rules : List ConfigRule) (mc : ModifiedContent)
    (h : llm (repairPrompt config_rules mc) = "") :
    repair_file llm check config_rules mc = none ∧
    repairFileOracleCalls llm check config_rules mc = 0 ∧
    repairFileLLMCalls llm check config_rules mc = 1 := by
  refine ⟨?_, ?_, ?_⟩ <;>
    simp [repair_file, repairFileOracleCalls, repairFileLLMCalls, h]

/-- C6, witness: the constantly empty model. -/
theorem C6_witness :
    repair_file (fun _ => "") (fun _ => "e") [] { content := "orig", lintList := [] } = none ∧
    repairFileOracleCalls (fun _ => "") (fun _ => "e") [] { content := "orig", lintList := [] } = 0 ∧
    repairFileLLMCalls (fun _ => "") (fun _ => "e") [] { content := "orig", lintList := [] } = 1 :=
  C6_empty_model_response (fun _ => "") (fun _ => "e") [] { content := "orig", lintList := [] }
    (by decide)

/-! ### C2: two diagnostics on one line -/

/-- C2, counterexample: two report entries on the same line of a one-line
file.  Exactly one annotation is appended, but the returned `lintList` holds
only the first diagnostic — the second is skipped before it is recorded, so
it does not "still appear in the returned issue list" as claimed. -/
theorem C2_counterexample :
    (process_infer_report_file "//" ["int x;\n"]
        [⟨none, some 1, some "q1", some "B1"⟩, ⟨none, some 1, some "q2", some "B1"⟩]).map
      (fun r => r.lintList) = some [⟨1, "q1", some "B1"⟩] ∧
    (process_infer_report_file "//" ["int x;\n"]
        [⟨none, some 1, some "q1", some "B1"⟩, ⟨none, some 1, some "q2", some "B1"⟩]).map
      (fun r => countSub r.content "[INFER_WARNING]") = some 1 :=
  ⟨by decide, by decide⟩

/-- C2, amended: for two diagnostics with the same in-range line, exactly one
annotation comment is appended to that line (carrying the first diagnostic's
qualifier), and only the first diagnostic appears in the returned
`lintList`; the second is skipped entirely (the source logs it as a
"Multiple issues" warning).  The marker's bug-type text comes from the
leftover loop variable, i.e. from the last entry (see C7). -/
theorem C2_first_wins (cmark : String) (content : List String) (e1 e2 : ReportEntry)
    (l : Int) (q1 q2 : String)
    (h1l : e1.line = some l) (h1q : e1.qualifier = some q1)
    (h2l : e2.line = some l) (h2q : e2.qualifier = some q2)
    (hne : q1 ≠ q2) (hlo : 0 < l) (hhi : l ≤ (content.length : Int)) :
    process_infer_report_file cmark content [e1, e2] = some
      { content := joinAll (content.set (l - 1).toNat
          (pyRstrip (content.getD (l - 1).toNat "") ++ markedInfo cmark e2.bug_type_hum q1)),
        lintList := [⟨l, q1, e1.bug_type_hum⟩] } := by
  have hcond : ¬ (l - 1 < 0 ∨ (content.length : Int) ≤ l - 1) := by omega
  have hstep1 : entryStep content.length {} e1 =
      { modified_lines := [((l - 1).toNat, q1)],
        lint_list := [⟨l, q1, e1.bug_type_hum⟩],
        last_bug_type_hum := e1.bug_type_hum } := by
    simp only [entryStep, h1l, h1q]
    rw [if_neg hcond]
    simp
  have hstep2 : entryStep content.length
      { modified_lines := [((l - 1).toNat, q1)],
        lint_list := [⟨l, q1, e1.bug_type_hum⟩],
        last_bug_type_hum := e1.bug_type_hum } e2 =
      { modified_lines := [((l - 1).toNat, q1)],
        lint_list := [⟨l, q1, e1.bug_type_hum⟩],
        last_bug_type_hum := e2.bug_type_hum } := by
    have hmem : (([((l - 1).toNat, q1)] : List (Nat × String)).any
        fun p => decide (p.1 = (l - 1).toNat)) = true := by simp
    simp only [entryStep, h2l, h2q]
    rw [if_neg hcond, if_pos hmem]
  have hfold : processEntries content.length [e1, e2] =
      { modified_lines := [((l - 1).toNat, q1)],
        lint_list := [⟨l, q1, e1.bug_type_hum⟩],
        last_bug_type_hum := e2.bug_type_hum } := by
    simp only [processEntries, List.foldl_cons, List.foldl_nil, hstep1, hstep2]
  simp only [process_infer_report_file, hfold]
  rw [if_neg (by simp : ¬ ([((l - 1).toNat, q1)] : List (Nat × String)) = [])]
  simp only [applyMods, List.foldl_cons, List.foldl_nil]

/-- C2, witness: a concrete one-line file and two same-line diagnostics. -/
theorem C2_witness :
    process_infer_report_file "//" ["int x;\n"]
      [⟨none, some 1, some "q1", some "B7"⟩, ⟨none, some 1, some "q2", some "B8"⟩] = some
      { content := joinAll (["int x;\n"].set (((1 : Int) - 1).toNat)
          (pyRstrip (["int x;\n"].getD (((1 : Int) - 1).toNat) "")
            ++ markedInfo "//" (some "B8") "q1")),
        lintList := [⟨1, "q1", some "B7"⟩] } :=
  C2_first_wins "//" ["int x;\n"] ⟨none, some 1, some "q1", some "B7"⟩
    ⟨none, some 1, some "q2", some "B8"⟩ 1 "q1" "q2" rfl rfl rfl rfl
    (by decide) (by decide) (by decide)

/-! ### C7: the marker's bug-type text -/

/-- C7: at the failing input (two diagnostics with different bug types on
different lines of a two-line file), the marker appended to line 1 is
`// [INFER_WARNING] B2:q1` — the bug type comes from the leftover loop
variable holding the last entry's `bug_type_hum`, not from the first
diagnostic targeting that line; `B1:q1` appears nowhere in the output, while
the `lintList` still records `B1` for line 1. -/
theorem C7_marker_bug_type_from_last_entry :
    process_infer_report_file "//" ["int a;\n", "int b;\n"]
      [⟨none, some 1, some "q1", some "B1"⟩, ⟨none, some 2, some "q2", some "B2"⟩] =
    some { content := "int a; // [INFER_WARNING] B2:q1\nint b; // [INFER_WARNING] B2:q2\n",
           lintList := [⟨1, "q1", some "B1"⟩, ⟨2, "q2", some "B2"⟩] } ∧
    strContains "int a; // [INFER_WARNING] B2:q1\nint b; // [INFER_WARNING] B2:q2\n" "B1:q1"
      = false :=
  ⟨by decide, by decide⟩

/-! ### C3: annotation is not idempotent -/

/-- C3, counterexample: annotating a one-line file once yields one
`[INFER_WARNING]` marker; feeding the annotated output back through the
normalizer with the same diagnostic appends a second copy of the same
marker to the same line — a duplicate marker, so the marker sets are not
equivalent. -/
theorem C3_counterexample :
    (process_infer_report_file "//" ["int x;\n"] [⟨none, some 1, some "q", some "B"⟩]).map
      (fun r => countSub r.content "[INFER_WARNING]") = some 1 ∧
    (process_infer_report_file "//"
        (readlines (((process_infer_report_file "//" ["int x;\n"]
          [⟨none, some 1, some "q", some "B"⟩]).getD ⟨"", []⟩).content))
        [⟨none, some 1, some "q", some "B"⟩]).map
      (fun r => countSub r.content "[INFER_WARNING]") = some 2 :=
  ⟨by decide, by decide⟩

theorem joinAll_singleton (s : String) : joinAll [s] = s := rfl

/-- Evaluation of the per-file normalizer on a one-line file with one
diagnostic on line 1. -/
theorem process_single_line (cmark : String) (x : String) (bt : Option String) (q : String) :
    process_infer_report_file cmark [x] [⟨none, some 1, some q, bt⟩] =
      some { content := pyRstrip x ++ markedInfo cmark bt q, lintList := [⟨1, q, bt⟩] } := by
  have hstep : entryStep ([x].length) {} ⟨none, some 1, some q, bt⟩ =
      { modified_lines := [(0, q)], lint_list := [⟨1, q, bt⟩], last_bug_type_hum := bt } := by
    simp only [entryStep]
    rw [if_neg (by simp : ¬ ((1 : Int) - 1 < 0 ∨ (([x].length : Nat) : Int) ≤ (1 : Int) - 1))]
    simp
  have hfold : processEntries ([x].length) [⟨none, some 1, some q, bt⟩] =
      { modified_lines := [(0, q)], lint_list := [⟨1, q, bt⟩], last_bug_type_hum := bt } := by
    simp only [processEntries, List.foldl_cons, List.foldl_nil, hstep]
  simp only [process_infer_report_file, hfold]
  rw [if_neg (by simp : ¬ ([((0 : Nat), q)] : List (Nat × String)) = [])]
  simp only [applyMods, List.foldl_cons, List.foldl_nil, List.set_cons_zero,
    List.getD_cons_zero, joinAll_singleton]

theorem reverse_dropWhile_of_rstrip_fixed (q : String) (hfix : pyRstrip q = q) :
    q.data.reverse.dropWhile isPyWS = q.data.reverse := by
  have hdata : (q.data.reverse.dropWhile isPyWS).reverse = q.data := congrArg String.data hfix
  calc q.data.reverse.dropWhile isPyWS
      = ((q.data.reverse.dropWhile isPyWS).reverse).reverse := by rw [List.reverse_reverse]
    _ = q.data.reverse := by rw [hdata]

theorem rstripList_append_newline (xl mid ql : List Char)
    (hqne : ¬ ql = []) (hqfix : ql.reverse.dropWhile isPyWS = ql.reverse) :
    ((xl ++ (mid ++ (ql ++ ['\n']))).reverse.dropWhile isPyWS).reverse
      = xl ++ (mid ++ ql) := by
  obtain ⟨h, t, hht⟩ : ∃ h t, ql.reverse = h :: t := by
    cases hrev : ql.reverse with
    | nil =>
      exact absurd (by simpa using congrArg List.reverse hrev) hqne
    | cons h t => exact ⟨h, t, rfl⟩
  have hh : isPyWS h = false := by
    by_contra hcontra
    have hhtrue : isPyWS h = true := by
      cases hv : isPyWS h
      · exact absurd hv hcontra
      · rfl
    have hx := hqfix
    rw [hht, List.dropWhile_cons, if_pos hhtrue] at hx
    have hlen := congrArg List.length hx
    have := (List.dropWhile_sublist isPyWS (l := t)).length_le
    simp at hlen
    omega
  have hrev1 : (xl ++ (mid ++ (ql ++ ['\n']))).reverse
      = '\n' :: (ql.reverse ++ (mid.reverse ++ xl.reverse)) := by
    simp [List.reverse_append]
  rw [hrev1, List.dropWhile_cons, if_pos (by decide : isPyWS '\n' = true), hht,
    List.cons_append, List.dropWhile_cons, hh]
  simp only [Bool.false_eq_true, if_false]
  rw [← List.cons_append, ← hht]
  simp [List.reverse_append]

/-- Re-annotating an already-annotated line: `rstrip` removes only the
marker's trailing newline (the qualifier being nonempty with no trailing
whitespace), so the line keeps its old marker and gains a new one. -/
theorem pyRstrip_annotated (x cmark : String) (bt : Option String) (q : String)
    (hq : ¬ q.data = []) (hfix : pyRstrip q = q) :
    pyRstrip (x ++ markedInfo cmark bt q) = x ++ dropLastStr (markedInfo cmark bt q) := by
  have hqfix := reverse_dropWhile_of_rstrip_fixed q hfix
  have hm : (markedInfo cmark bt q).data
      = (" " ++ cmark ++ " [INFER_WARNING] " ++ pyOptStr bt ++ ":").data
        ++ (q.data ++ ['\n']) := by
    show ((" " ++ cmark ++ " [INFER_WARNING] " ++ pyOptStr bt ++ ":").data ++ q.data)
        ++ ['\n'] = _
    rw [List.append_assoc]
  have hdl : (dropLastStr (markedInfo cmark bt q)).data
      = (" " ++ cmark ++ " [INFER_WARNING] " ++ pyOptStr bt ++ ":").data ++ q.data := by
    show (markedInfo cmark bt q).data.dropLast = _
    show (((" " ++ cmark ++ " [INFER_WARNING] " ++ pyOptStr bt ++ ":").data ++ q.data)
        ++ ['\n']).dropLast = _
    exact List.dropLast_concat
  apply String.ext
  show ((x ++ markedInfo cmark bt q).data.reverse.dropWhile isPyWS).reverse = _
  rw [show (x ++ markedInfo cmark bt q).data
      = x.data ++ ((" " ++ cmark ++ " [INFER_WARNING] " ++ pyOptStr bt ++ ":").data
        ++ (q.data ++ ['\n'])) from by rw [data_append, hm]]
  rw [rstripList_append_newline _ _ _ hq hqfix]
  simp [data_append, hdl, List.append_assoc]

/-- C3, amended: annotation is not idempotent.  Re-running the normalizer on
its own annotated output (with the same diagnostic) appends the marker text
a second time: the annotated line becomes old line, old marker minus its
trailing newline, then a fresh marker — a different, longer content with a
duplicate marker, rather than an equivalent marker set. -/
theorem C3_not_idempotent (cmark : String) (bt : Option String) (q c : String)
    (hq : ¬ q.data = []) (hfix : pyRstrip q = q)
    (hsplit : readlines (pyRstrip c ++ markedInfo cmark bt q)
      = [pyRstrip c ++ markedInfo cmark bt q]) :
    process_infer_report_file cmark [c] [⟨none, some 1, some q, bt⟩] =
      some { content := pyRstrip c ++ markedInfo cmark bt q, lintList := [⟨1, q, bt⟩] } ∧
    process_infer_report_file cmark
        (readlines (pyRstrip c ++ markedInfo cmark bt q)) [⟨none, some 1, some q, bt⟩] =
      some { content := (pyRstrip c ++ dropLastStr (markedInfo cmark bt q))
               ++ markedInfo cmark bt q,
             lintList := [⟨1, q, bt⟩] } ∧
    ¬ ((pyRstrip c ++ dropLastStr (markedInfo cmark bt q)) ++ markedInfo cmark bt q
        = pyRstrip c ++ markedInfo cmark bt q) := by
  have hrun1 := process_single_line cmark c bt q
  have hann := pyRstrip_annotated (pyRstrip c) cmark bt q hq hfix
  refine ⟨hrun1, ?_, ?_⟩
  · rw [hsplit, process_single_line, hann]
  · intro heq
    have hm2 : 2 ≤ (markedInfo cmark bt q).data.length := by
      simp [markedInfo, data_append, List.length_append]
      omega
    have hlen := congrArg (fun s : String => s.data.length) heq
    simp only [data_append, List.length_append] at hlen
    have hdll : (dropLastStr (markedInfo cmark bt q)).data.length
        = (markedInfo cmark bt q).data.length - 1 := by
      show (markedInfo cmark bt q).data.dropLast.length = _
      exact List.length_dropLast _
    rw [hdll] at hlen
    omega

/-- C3, witness: a concrete line, qualifier and bug type instantiating the
non-idempotence theorem. -/
theorem C3_witness :
    process_infer_report_file "//" ["int x;\n"] [⟨none, some 1, some "q", some "B"⟩] =
      some { content := pyRstrip "int x;\n" ++ markedInfo "//" (some "B") "q",
             lintList := [⟨1, "q", some "B"⟩] } ∧
    process_infer_report_file "//"
        (readlines (pyRstrip "int x;\n" ++ markedInfo "//" (some "B") "q"))
        [⟨none, some 1, some "q", some "B"⟩] =
      some { content := (pyRstrip "int x;\n" ++ dropLastStr (markedInfo "//" (some "B") "q"))
               ++ markedInfo "//" (some "B") "q",
             lintList := [⟨1, "q", some "B"⟩] } ∧
    ¬ ((pyRstrip "int x;\n" ++ dropLastStr (markedInfo "//" (some "B") "q"))
          ++ markedInfo "//" (some "B") "q"
        = pyRstrip "int x;\n" ++ markedInfo "//" (some "B") "q") :=
  C3_not_idempotent "//" (some "B") "q" "int x;\n" (by decide) (by decide) (by decide)

/-! ### C10: diagnostics without a qualifier or with an out-of-range line -/

theorem entryStep_skip_proj (n : Nat) (st : NormState) (e : ReportEntry)
    (h : e.qualifier = none ∨
      ∃ l : Int, e.line = some l ∧ (l - 1 < 0 ∨ (n : Int) ≤ l - 1)) :
    (entryStep n st e).modified_lines = st.modified_lines ∧
    (entryStep n st e).lint_list = st.lint_list := by
  rcases h with hq | ⟨l, hl, hrange⟩
  · cases hline : e.line <;> simp [entryStep, hq, hline]
  · cases hqual : e.qualifier with
    | none => simp [entryStep, hl, hqual]
    | some q =>
      simp only [entryStep, hl, hqual]
      rw [if_pos hrange]
      exact ⟨rfl, rfl⟩

theorem entryStep_proj_congr (n : Nat) (e : ReportEntry) (s1 s2 : NormState)
    (hm : s1.modified_lines = s2.modified_lines) (hl : s1.lint_list = s2.lint_list) :
    (entryStep n s1 e).modified_lines = (entryStep n s2 e).modified_lines ∧
    (entryStep n s1 e).lint_list = (entryStep n s2 e).lint_list := by
  cases hline : e.line <;> cases hqual : e.qualifier <;>
      simp only [entryStep, hline, hqual] <;>
    first
    | exact ⟨hm, hl⟩
    | (rw [hm, hl]; exact ⟨rfl, rfl⟩)

theorem foldl_proj_congr (n : Nat) (es : List ReportEntry) :
    ∀ s1 s2 : NormState, s1.modified_lines = s2.modified_lines →
    s1.lint_list = s2.lint_list →
    (es.foldl (entryStep n) s1).modified_lines = (es.foldl (entryStep n) s2).modified_lines ∧
    (es.foldl (entryStep n) s1).lint_list = (es.foldl (entryStep n) s2).lint_list := by
  induction es with
  | nil => intro s1 s2 hm hl; exact ⟨hm, hl⟩
  | cons e es ih =>
    intro s1 s2 hm hl
    have h := entryStep_proj_congr n e s1 s2 hm hl
    exact ih _ _ h.1 h.2

/-- C10: a report entry whose qualifier is absent, or whose line falls
outside the file's line range, contributes no annotated line and no
`lintList` entry, and the remaining entries are processed as if it were not
there; in particular, the returned issue list is unchanged. -/
theorem C10_invalid_entries_skipped (cmark : String) (content : List String)
    (es1 es2 : List ReportEntry) (e : ReportEntry)
    (h : e.qualifier = none ∨
      ∃ l : Int, e.line = some l ∧ (l - 1 < 0 ∨ (content.length : Int) ≤ l - 1)) :
    (processEntries content.length (es1 ++ e :: es2)).modified_lines
      = (processEntries content.length (es1 ++ es2)).modified_lines ∧
    (processEntries content.length (es1 ++ e :: es2)).lint_list
      = (processEntries content.length (es1 ++ es2)).lint_list ∧
    (process_infer_report_file cmark content (es1 ++ e :: es2)).map (fun r => r.lintList)
      = (process_infer_report_file cmark content (es1 ++ es2)).map (fun r => r.lintList) := by
  have hskip := entryStep_skip_proj content.length
    (es1.foldl (entryStep content.length) {}) e h
  have key :
      (processEntries content.length (es1 ++ e :: es2)).modified_lines
        = (processEntries content.length (es1 ++ es2)).modified_lines ∧
      (processEntries content.length (es1 ++ e :: es2)).lint_list
        = (processEntries content.length (es1 ++ es2)).lint_list := by
    unfold processEntries
    rw [List.foldl_append, List.foldl_append, List.foldl_cons]
    exact foldl_proj_congr _ es2 _ _ hskip.1 hskip.2
  refine ⟨key.1, key.2, ?_⟩
  by_cases hml : (processEntries content.length (es1 ++ es2)).modified_lines = []
  · simp [process_infer_report_file, key.1, hml]
  · simp [process_infer_report_file, key.1, key.2, hml]

/-- C10, witness: an entry with line 99 on a one-line file, between two
valid entries. -/
theorem C10_witness :
    (process_infer_report_file "//" ["int x;\n"]
        ([⟨none, some 1, some "qa", some "A"⟩] ++ ⟨none, some 99, some "qb", some "B"⟩ ::
          [⟨none, some 1, some "qc", some "C"⟩])).map (fun r => r.lintList)
      = (process_infer_report_file "//" ["int x;\n"]
        ([⟨none, some 1, some "qa", some "A"⟩] ++ [⟨none, some 1, some "qc", some "C"⟩])).map
          (fun r => r.lintList) :=
  (C10_invalid_entries_skipped "//" ["int x;\n"]
    [⟨none, some 1, some "qa", some "A"⟩] [⟨none, some 1, some "qc", some "C"⟩]
    ⟨none, some 99, some "qb", some "B"⟩
    (Or.inr ⟨99, rfl, by decide⟩)).2.2

/-! ### C4 and C8: issue summaries -/

theorem foldl_append_map {α β : Type} (f : α → β) (l : List α) (acc : List β) :
    l.foldl (fun a x => a ++ [f x]) acc = acc ++ l.map f := by
  induction l generalizing acc with
  | nil => simp
  | cons x xs ih => simp [ih]

theorem foldl_filter_append_map (f : ProcessedIssue → SummarizedIssue) (target : String)
    (l : List ProcessedIssue) (acc : List SummarizedIssue) :
    l.foldl (fun a issue => if locationFile issue = some target then a ++ [f issue] else a) acc
      = acc ++ (l.filter (fun i => locationFile i = some target)).map f := by
  induction l generalizing acc with
  | nil => simp
  | cons x xs ih =>
    by_cases h : locationFile x = some target
    · simp [h, ih, List.filter_cons]
    · simp [h, ih, List.filter_cons]

theorem CodeRepairPrompt_summarize_eq_map (issues : List ProcessedIssue) (m : Nat) :
    CodeRepairPrompt_summarize_issues issues m = (issues.take m).map summarizeEntry := by
  unfold CodeRepairPrompt_summarize_issues
  rw [foldl_append_map]
  simp

theorem InferProcessManager_summarize_eq_filter_map (infer : List ProcessedIssue)
    (target : String) :
    InferProcessManager_summarize_issues infer target
      = (infer.filter (fun i => locationFile i = some target)).map summarizeEntry := by
  unfold InferProcessManager_summarize_issues
  rw [foldl_filter_append_map]
  simp

/-- C4, counterexample: four processed issues, all for the target file.  The
`InferProcessManager.summarize_issues` variant returns all four entries — it
applies no cap of 3, contrary to the claim that both variants do. -/
theorem C4_counterexample :
    (InferProcessManager_summarize_issues
      [⟨some ⟨some "t.cpp", none⟩, some "d1", none, none, none⟩,
       ⟨some ⟨some "t.cpp", none⟩, some "d2", none, none, none⟩,
       ⟨some ⟨some "t.cpp", none⟩, some "d3", none, none, none⟩,
       ⟨some ⟨some "t.cpp", none⟩, some "d4", none, none, none⟩] "t.cpp").length = 4 ∧
    ¬ ((4 : Nat) = 3) :=
  ⟨by decide, by decide⟩

/-- C4, amended: the cap of 3 (first 3 issues, in emission order) holds for
`CodeRepairPrompt._summarize_issues`; `InferProcessManager.summarize_issues`
applies no cap — it returns one entry per loaded issue whose location file
equals the target path, in emission order. -/
theorem C4_summary_cap (issues infer : List ProcessedIssue) (target : String)
    (h : 3 < issues.length) :
    (CodeRepairPrompt_summarize_issues issues 3).length = 3 ∧
    CodeRepairPrompt_summarize_issues issues 3 = (issues.take 3).map summarizeEntry ∧
    InferProcessManager_summarize_issues infer target
      = (infer.filter (fun i => locationFile i = some target)).map summarizeEntry := by
  refine ⟨?_, CodeRepairPrompt_summarize_eq_map issues 3,
    InferProcessManager_summarize_eq_filter_map infer target⟩
  rw [CodeRepairPrompt_summarize_eq_map issues 3]
  simp [List.length_take]
  omega

/-- C4, witness: four concrete issues. -/
theorem C4_witness :
    (CodeRepairPrompt_summarize_issues
      [⟨some ⟨some "t.cpp", none⟩, some "d1", none, none, none⟩,
       ⟨some ⟨some "t.cpp", none⟩, some "d2", none, none, none⟩,
       ⟨some ⟨some "t.cpp", none⟩, some "d3", none, none, none⟩,
       ⟨some ⟨some "t.cpp", none⟩, some "d4", none, none, none⟩] 3).length = 3 :=
  (C4_summary_cap
    [⟨some ⟨some "t.cpp", none⟩, some "d1", none, none, none⟩,
     ⟨some ⟨some "t.cpp", none⟩, some "d2", none, none, none⟩,
     ⟨some ⟨some "t.cpp", none⟩, some "d3", none, none, none⟩,
     ⟨some ⟨some "t.cpp", none⟩, some "d4", none, none, none⟩] [] "t.cpp" (by decide)).1

/-- C8, counterexample: one issue with three fix suggestions.  Both
summarizers keep all three — no variant truncates a summarized issue to at
most 2 fix suggestions. -/
theorem C8_counterexample :
    ((InferProcessManager_summarize_issues
        [⟨some ⟨some "t.cpp", none⟩, some "d1", none, none,
          some ⟨some ["s1", "s2", "s3"]⟩⟩] "t.cpp").headD
      ⟨none, none, none, "", []⟩).suggestions.length = 3 ∧
    ((CodeRepairPrompt_summarize_issues
        [⟨some ⟨some "t.cpp", none⟩, some "d1", none, none,
          some ⟨some ["s1", "s2", "s3"]⟩⟩] 3).headD
      ⟨none, none, none, "", []⟩).suggestions.length = 3 ∧
    ¬ ((3 : Nat) ≤ 2) :=
  ⟨by decide, by decide, by decide⟩

/-- C8, amended: every summarized entry (in either summarizer) keeps all of
its source issue's fix suggestions, unchanged and untruncated. -/
theorem C8_all_suggestions_kept :
    (∀ (issues : List ProcessedIssue) (s : SummarizedIssue),
      s ∈ CodeRepairPrompt_summarize_issues issues 3 →
      ∃ i ∈ issues, s.suggestions = (i.analysis.getD {}).fix_suggestions.getD []) ∧
    (∀ (infer : List ProcessedIssue) (target : String) (s : SummarizedIssue),
      s ∈ InferProcessManager_summarize_issues infer target →
      ∃ i ∈ infer, s.suggestions = (i.analysis.getD {}).fix_suggestions.getD []) := by
  constructor
  · intro issues s hs
    rw [CodeRepairPrompt_summarize_eq_map] at hs
    obtain ⟨i, hi, hsi⟩ := List.mem_map.mp hs
    exact ⟨i, List.mem_of_mem_take hi, by rw [← hsi]; rfl⟩
  · intro infer target s hs
    rw [InferProcessManager_summarize_eq_filter_map] at hs
    obtain ⟨i, hi, hsi⟩ := List.mem_map.mp hs
    exact ⟨i, List.mem_of_mem_filter hi, by rw [← hsi]; rfl⟩

/-- C8, witness: the summarized entry of a concrete three-suggestion issue
comes from that issue with all suggestions intact. -/
theorem C8_witness :
    ∃ i ∈ [(⟨some ⟨some "t.cpp", none⟩, some "d1", none, none,
        some ⟨some ["s1", "s2", "s3"]⟩⟩ : ProcessedIssue)],
      (summarizeEntry ⟨some ⟨some "t.cpp", none⟩, some "d1", none, none,
        some ⟨some ["s1", "s2", "s3"]⟩⟩).suggestions
        = (i.analysis.getD {}).fix_suggestions.getD [] :=
  C8_all_suggestions_kept.1
    [⟨some ⟨some "t.cpp", none⟩, some "d1", none, none, some ⟨some ["s1", "s2", "s3"]⟩⟩]
    (summarizeEntry ⟨some ⟨some "t.cpp", none⟩, some "d1", none, none,
      some ⟨some ["s1", "s2", "s3"]⟩⟩)
    (by decide)

/-! ### C9: the compared-to-null fix suggestion -/

/-- C9, counterexample: the scenario's diagnostic exactly as stated (its
"compared to null" text sits in the qualifier; there is no `bug_trace`).
The enricher inspects only trace-step descriptions for "compared to null",
so nothing is prepended: `fix_suggestions[0]` is the sentinel-value
suggestion, not the move-the-dereference suggestion. -/
theorem C9_counterexample :
    process_single_issue_fix_suggestions
      [{ file := some "test.cpp", line := some 12,
         bug_type := some "NULLPTR_DEREFERENCE",
         qualifier := some "pointer `p` originating from line 5 ... compared to null" }]
      { file := some "test.cpp", line := some 12,
        bug_type := some "NULLPTR_DEREFERENCE",
        qualifier := some "pointer `p` originating from line 5 ... compared to null" }
      = some ["Consider using a sentinel value instead of null for p",
              "Initialize p with a safe default value at line 5"] ∧
    ¬ (("Consider using a sentinel value instead of null for p" : String)
        = "Move the dereference inside the if (p != nullptr) block instead of the else block") :=
  ⟨by decide, by decide⟩

/-- C9, amended: the same diagnostic carrying additionally a `bug_trace`
step whose description contains "compared to null" (the enricher inspects
the trace, not the qualifier): the move-the-dereference suggestion is
prepended ahead of all generic suggestions, so `fix_suggestions[0]` equals
"Move the dereference inside the if (p != nullptr) block instead of the
else block". -/
theorem C9_compared_to_null_prepended :
    process_single_issue_fix_suggestions
      [{ file := some "test.cpp", line := some 12,
         bug_type := some "NULLPTR_DEREFERENCE",
         qualifier := some "pointer `p` originating from line 5 ... compared to null",
         bug_trace := [⟨some "p is compared to null here", none, none⟩] }]
      { file := some "test.cpp", line := some 12,
        bug_type := some "NULLPTR_DEREFERENCE",
        qualifier := some "pointer `p` originating from line 5 ... compared to null",
        bug_trace := [⟨some "p is compared to null here", none, none⟩] }
      = some ["Move the dereference inside the if (p != nullptr) block instead of the else block",
              "Consider using a sentinel value instead of null for p",
              "Initialize p with a safe default value at line 5"] := by
  decide

end RepairPipeline
